import Mathlib

/-!
Verification of the FDS Analytics agent repository against its
natural-language specification.

The repository consists of four Python files:
  * `agent/agent.py`     — builds an `LlmAgent` (`root_agent`) whose
    instruction block advertises the eight analytics operations with
    their required/optional parameters and constraints, and attaches an
    `OpenAPIToolset` built from `vertex-ai-tools-config.yaml`;
  * `agent/deploy.py`    — straight-line deployment script (init SDK,
    wrap agent, deploy, persist resource name, print summary);
  * `agent/test_agent.py` — test harness (resolve resource name, connect,
    create session, stream five test queries and aggregate each reply);
  * `agent/__init__.py`  — re-export of `root_agent`.

Pure data and control flow of these scripts are embedded shallowly below.
The tool-argument validation and tenant injection performed during the
orchestrator's Validating state live in the managed runtime / the OpenAPI
configuration file, which is not part of the source slice; those are
modelled from the specification's words and marked as such.
-/

namespace FDS

/-! ## Operation catalog (from the instruction block of `agent/agent.py`) -/

/-- Constraint attached to a parameter of an analytics operation. -/
inductive ParamConstraint where
  | date
  | intRange (lo hi : Int)
  | enum (vals : List String)
  | freeText
  | boolean
deriving DecidableEq, Repr

/-- One parameter of an operation: its name, whether it is required,
and its constraint. -/
structure ParamSpec where
  pname : String
  required : Bool
  constraint : ParamConstraint
deriving DecidableEq, Repr

/-- One analytics operation of the catalog. -/
structure Operation where
  opName : String
  params : List ParamSpec
deriving DecidableEq, Repr

/-- The eight operations exactly as advertised to the language model in the
instruction block of `agent/agent.py` (lines 36–68): each entry lists the
required parameters, then the optional ones, with the numeric range on
`limit` and the enumerations on `type` and `comparison`. -/
def instructionCatalog : List Operation :=
  [ ⟨"show_daily_sales",
      [⟨"startDate", true, .date⟩, ⟨"endDate", true, .date⟩,
       ⟨"category", false, .freeText⟩]⟩,
    ⟨"show_top_items",
      [⟨"limit", true, .intRange 1 1000⟩,
       ⟨"startDate", true, .date⟩, ⟨"endDate", true, .date⟩,
       ⟨"category", false, .freeText⟩]⟩,
    ⟨"show_category_breakdown",
      [⟨"startDate", true, .date⟩, ⟨"endDate", true, .date⟩,
       ⟨"includeBeer", false, .boolean⟩]⟩,
    ⟨"get_total_sales",
      [⟨"startDate", true, .date⟩, ⟨"endDate", true, .date⟩,
       ⟨"category", false, .freeText⟩]⟩,
    ⟨"find_peak_day",
      [⟨"startDate", true, .date⟩, ⟨"endDate", true, .date⟩,
       ⟨"type", true, .enum ["highest", "lowest"]⟩,
       ⟨"category", false, .freeText⟩]⟩,
    ⟨"compare_day_types",
      [⟨"startDate", true, .date⟩, ⟨"endDate", true, .date⟩,
       ⟨"comparison", true, .enum ["weekday_vs_weekend", "by_day_of_week"]⟩,
       ⟨"category", false, .freeText⟩]⟩,
    ⟨"track_item_performance",
      [⟨"itemName", true, .freeText⟩,
       ⟨"startDate", true, .date⟩, ⟨"endDate", true, .date⟩]⟩,
    ⟨"compare_periods",
      [⟨"startDate1", true, .date⟩, ⟨"endDate1", true, .date⟩,
       ⟨"startDate2", true, .date⟩, ⟨"endDate2", true, .date⟩,
       ⟨"category", false, .freeText⟩, ⟨"itemName", false, .freeText⟩]⟩ ]

/-- Names of the required parameters of an operation, in declared order. -/
def requiredNames (op : Operation) : List String :=
  (op.params.filter (fun p => p.required)).map ParamSpec.pname

/-- Names of the optional parameters of an operation, in declared order. -/
def optionalNames (op : Operation) : List String :=
  (op.params.filter (fun p => !p.required)).map ParamSpec.pname

/-- The constraint of a named parameter of a named catalog operation,
when both exist. -/
def constraintOf (opname pname : String) : Option ParamConstraint :=
  match instructionCatalog.find? (fun op => op.opName = opname) with
  | none => none
  | some op =>
    match op.params.find? (fun p => p.pname = pname) with
    | none => none
    | some p => some p.constraint

/-- The Section 6 table of the specification, written down verbatim from the
spec's words: for each operation its name, required parameter names, and
optional parameter names.  Used as the comparand for the catalog the source
advertises. -/
def specTableSection6 : List (String × List String × List String) :=
  [ ("show_daily_sales", ["startDate", "endDate"], ["category"]),
    ("show_top_items", ["limit", "startDate", "endDate"], ["category"]),
    ("show_category_breakdown", ["startDate", "endDate"], ["includeBeer"]),
    ("get_total_sales", ["startDate", "endDate"], ["category"]),
    ("find_peak_day", ["startDate", "endDate", "type"], ["category"]),
    ("compare_day_types", ["startDate", "endDate", "comparison"], ["category"]),
    ("track_item_performance", ["itemName", "startDate", "endDate"], []),
    ("compare_periods",
      ["startDate1", "endDate1", "startDate2", "endDate2"],
      ["category", "itemName"]) ]

/-! ## Argument sets and the Validating step

The argument validation and tenant injection are performed by the managed
runtime from the OpenAPI configuration (`vertex-ai-tools-config.yaml`),
which is referenced by `agent/agent.py` but absent from the source slice;
they are modelled from the specification (Sections 4.1 and 4.3). -/

/-- A typed value supplied for a parameter. -/
inductive Value where
  | str (s : String)
  | int (n : Int)
  | bool (b : Bool)
deriving DecidableEq, Repr

/-- An argument set: an ordered mapping from parameter name to value,
as produced by the language model. -/
def ArgumentSet : Type := List (String × Value)

/-- Look up the first value bound to a parameter name in an argument set. -/
def lookupArg (k : String) : List (String × Value) → Option Value
  | [] => none
  | (k', v) :: rest => if k' = k then some v else lookupArg k rest

/-- The fixed tenant identifier of the deployment
(`agent/agent.py`: tenant_id "senso-sushi"). -/
def fixedTenant : String := "senso-sushi"

/-- Modelled from the spec: Section 4.3 — "a fixed default argument
(`tenant_id = "senso-sushi"`) is always injected into every Argument Set
during Validating, overriding any value the model supplies".  The injected
binding replaces any model-supplied `tenant_id` binding.  The mechanism
itself lives in the OpenAPI configuration / managed runtime, outside the
source slice. -/
def injectTenant (args : List (String × Value)) : List (String × Value) :=
  ("tenant_id", Value.str fixedTenant) ::
    args.filter (fun p => p.1 ≠ "tenant_id")

/-- Modelled from the spec: Section 4.1 — a date-typed parameter "must match
an ISO calendar-date format" `YYYY-MM-DD`: ten characters, digits in the
year/month/day positions, dashes at positions 4 and 7, month in 1..12 and
day in 1..31. -/
def isIsoDate (s : String) : Bool :=
  let cs := s.data
  match cs with
  | [y1, y2, y3, y4, d1, m1, m2, d2, a1, a2] =>
    y1.isDigit && y2.isDigit && y3.isDigit && y4.isDigit &&
    d1 = '-' && d2 = '-' &&
    m1.isDigit && m2.isDigit && a1.isDigit && a2.isDigit &&
    (let m := (m1.toNat - '0'.toNat) * 10 + (m2.toNat - '0'.toNat)
     let d := (a1.toNat - '0'.toNat) * 10 + (a2.toNat - '0'.toNat)
     1 ≤ m && m ≤ 12 && 1 ≤ d && d ≤ 31)
  | _ => false

/-- Modelled from the spec: Section 4.1 — whether one supplied value
satisfies one declared constraint (date format, inclusive numeric range,
declared enumeration literals, free text, boolean). -/
def satisfies : Value → ParamConstraint → Bool
  | .str s, .date => isIsoDate s
  | .int n, .intRange lo hi => lo ≤ n && n ≤ hi
  | .str s, .enum vals => vals.contains s
  | .str _, .freeText => true
  | .bool _, .boolean => true
  | _, _ => false

/-- Modelled from the spec: Section 4.1 — one supplied binding is admissible
for an operation when its parameter exists in the operation's schema and the
value satisfies the declared constraint; the injected `tenant_id` binding is
always admissible; "unknown parameters are rejected". -/
def pairOk (op : Operation) (p : String × Value) : Bool :=
  if p.1 = "tenant_id" then p.2 = Value.str fixedTenant
  else
    match op.params.find? (fun q => q.pname = p.1) with
    | none => false
    | some q => satisfies p.2 q.constraint

/-- Lexicographic order on character lists, comparing code points. -/
def charListLe : List Char → List Char → Bool
  | [], _ => true
  | _ :: _, [] => false
  | a :: as, b :: bs =>
    if a = b then charListLe as bs else decide (a.toNat < b.toNat)

/-- Lexicographic order on strings; on ISO `YYYY-MM-DD` dates this is
chronological order. -/
def strLe (s e : String) : Bool := charListLe s.data e.data

/-- Modelled from the spec: Section 4.1 — validation of an argument set
against an operation: every required parameter is supplied with a value of
the declared type and constraint, every supplied binding is admissible, and
`startDate <= endDate` whenever both appear (ISO dates compare
lexicographically). -/
def validate (op : Operation) (args : List (String × Value)) : Bool :=
  (op.params.all (fun q =>
    !q.required ||
      match lookupArg q.pname args with
      | none => false
      | some v => satisfies v q.constraint)) &&
  args.all (fun p => pairOk op p) &&
  (match lookupArg "startDate" args, lookupArg "endDate" args with
   | some (.str s), some (.str e) => strLe s e
   | _, _ => true)

/-- Modelled from the spec: Sections 4.2 and 4.3 — the Validating step
injects the fixed tenant into the model-supplied argument set, then the
validated argument set (and only a validated one) is dispatched to the Tool
Invoker; an invalid set is never dispatched. -/
def dispatch (op : Operation) (modelArgs : List (String × Value)) :
    Option (List (String × Value)) :=
  let args := injectTenant modelArgs
  if validate op args then some args else none

/-- Number of network requests the Tool Invoker performs for one proposed
tool call: exactly one when the argument set validates, none otherwise
(spec Section 4.2: "performs exactly one network request per call"). -/
def requestsSent (op : Operation) (modelArgs : List (String × Value)) : Nat :=
  match dispatch op modelArgs with
  | some _ => 1
  | none => 0

/-- The `show_top_items` operation of the catalog. -/
def showTopItems : Operation :=
  ⟨"show_top_items",
    [⟨"limit", true, .intRange 1 1000⟩,
     ⟨"startDate", true, .date⟩, ⟨"endDate", true, .date⟩,
     ⟨"category", false, .freeText⟩]⟩

/-! ## Reply aggregation (`agent/test_agent.py`, lines 126–138)

The streaming loop of the test harness observes a sequence of events; an
event may or may not carry a text fragment (`hasattr(event, 'text') and
event.text`): an event is modelled as `Option String`, with `none` for an
event without a text attribute, and the emptiness test made explicit. -/

/-- Left-to-right concatenation of a list of strings (the semantics of
Python's `"".join`). -/
def concatFragments (l : List String) : String :=
  l.foldl (fun a b => a ++ b) ""

/-- One iteration of the streaming loop of `test_agent.py` (lines 134–136):
an event carrying a truthy (non-empty) text fragment appends it to
`response_parts`; any other event leaves the list unchanged. -/
def collectStep (acc : List String) (e : Option String) : List String :=
  match e with
  | some t => if t = "" then acc else acc ++ [t]
  | none => acc

/-- The `response_parts` list built by the streaming loop of
`test_agent.py` (lines 128–137): each event carrying a non-empty text
fragment appends that fragment, in arrival order. -/
def collectParts (events : List (Option String)) : List String :=
  events.foldl collectStep []

/-- The `full_response` computed at line 138 of `test_agent.py`:
`"".join(response_parts)`. -/
def fullResponse (events : List (Option String)) : String :=
  concatFragments (collectParts events)

/-! ## Response Aggregator (spec Section 4.4)

The Response Aggregator component itself runs inside the managed runtime
and is not part of the source slice; it is modelled from the
specification's contract. -/

/-- Modelled from the spec: Section 4.4 — the Response Aggregator's state is
the ordered list of fragments that have arrived so far; the component itself
lives in the managed runtime, outside the source slice. -/
structure AggregatorState where
  arrived : List String
deriving DecidableEq, Repr

/-- Modelled from the spec: Section 4.4 — consuming one incoming fragment
appends it after the fragments already arrived. -/
def feed (st : AggregatorState) (frag : String) : AggregatorState :=
  ⟨st.arrived ++ [frag]⟩

/-- Feeding an ordered sequence of fragments one at a time. -/
def feedAll (st : AggregatorState) (frags : List String) : AggregatorState :=
  frags.foldl feed st

/-- Modelled from the spec: Section 4.4 — `peekPartial()` returns the
concatenation of the fragments that have arrived so far, usable if the
caller disconnects mid-stream. -/
def peekPartial (st : AggregatorState) : String :=
  concatFragments st.arrived

/-- Modelled from the spec: Section 4.4 — `collectAll()` concatenates the
fragments in arrival order until the producer signals completion. -/
def collectAll (frags : List String) : String :=
  peekPartial (feedAll ⟨[]⟩ frags)

/-! ## The test harness (`agent/test_agent.py`) -/

/-- One entry of `TEST_QUERIES` (lines 34–60 of `test_agent.py`). -/
structure TestQuery where
  qname : String
  query : String
  expected_tool : String
deriving DecidableEq, Repr

/-- The five sample queries of `TEST_QUERIES`. -/
def TEST_QUERIES : List TestQuery :=
  [ ⟨"Daily Sales Query", "Show me daily sales for May 2025",
      "show_daily_sales"⟩,
    ⟨"Top Items Query", "What are the top 10 items in July 2025?",
      "show_top_items"⟩,
    ⟨"Category Breakdown Query", "Show me sales by category for May 2025",
      "show_category_breakdown"⟩,
    ⟨"Period Comparison Query", "Compare May and June 2025 sales",
      "compare_periods"⟩,
    ⟨"Peak Day Query", "What was the best sales day in May 2025?",
      "find_peak_day"⟩ ]

/-- Outcome of streaming one query: either the streaming loop raised
(`except` branch, line 153), or it completed with the observed events. -/
def QueryOutcome : Type := Except Unit (List (Option String))

/-- The verdict of one test (lines 140–155 of `test_agent.py`): a raised
exception fails the test; a completed stream passes exactly when
`full_response` is non-empty (`if full_response:`). -/
def queryPassed : Except Unit (List (Option String)) → Bool
  | .error _ => false
  | .ok events => fullResponse events ≠ ""

/-- The verdict the harness's loop assigns to one `TEST_QUERIES` entry,
given the environment's response to each message: only the entry's `query`
field is sent (line 132), and the verdict is `queryPassed` of the outcome;
no other field of the entry is consulted. -/
def verdictFor (resp : String → Except Unit (List (Option String)))
    (q : TestQuery) : Bool :=
  queryPassed (resp q.query)

/-- The value `test_agent` returns (line 169): `failed == 0`, i.e. every
query passed. -/
def suiteSuccess (resp : String → Except Unit (List (Option String))) : Bool :=
  TEST_QUERIES.all (verdictFor resp)

/-- The exit code of `main` once the suite has run (line 198):
`sys.exit(0 if success else 1)`. -/
def suiteExitCode (resp : String → Except Unit (List (Option String))) : Nat :=
  if suiteSuccess resp then 0 else 1

/-- The setup phases of `test_agent`/`main` that can abort before or after
the suite runs, with the environment's answers to each phase. -/
structure TestSetup where
  resourceFound : Bool
  connectOk : Bool
  sessionOk : Bool
deriving DecidableEq, Repr

/-- The exit code of an entire `test_agent.py` run: `main` exits 1 when no
resource name is found (line 193), `test_agent` exits 1 when connecting
fails (line 96) or session creation fails (line 109); otherwise the suite
runs and `main` exits 0 exactly when every query passed (line 198). -/
def testHarnessExitCode (s : TestSetup)
    (resp : String → Except Unit (List (Option String))) : Nat :=
  if !s.resourceFound then 1
  else if !s.connectOk then 1
  else if !s.sessionOk then 1
  else suiteExitCode resp

/-! ## The deploy script (`agent/deploy.py`) -/

/-- The environment's answer to each phase of `deploy.py`: whether SDK
initialization, agent wrapping, deployment, and the resource-file write
succeed. -/
structure DeployRun where
  initOk : Bool
  wrapOk : Bool
  deployOk : Bool
  saveOk : Bool
deriving DecidableEq, Repr

/-- Observable outcome of one run of `deploy.py`. -/
structure DeployOutcome where
  exitCode : Nat
  printedDiagnostic : Bool
  warnedSave : Bool
  printedSummary : Bool
  deployAttempts : Nat
deriving DecidableEq, Repr

/-- The straight-line control flow of `deploy.py` (lines 42–106): each
failing phase prints a diagnostic and calls `sys.exit(1)`; a failing
resource-file write only prints a warning (line 92); the script then prints
the DEPLOYMENT SUCCESSFUL summary and falls off the end, exiting 0.
`agent_engines.create` is called at most once — there is no retry. -/
def runDeploy (r : DeployRun) : DeployOutcome :=
  if !r.initOk then ⟨1, true, false, false, 0⟩
  else if !r.wrapOk then ⟨1, true, false, false, 0⟩
  else if !r.deployOk then ⟨1, true, false, false, 1⟩
  else ⟨0, false, !r.saveOk, true, 1⟩

/-! ## Resource-name persistence and resolution -/

/-- Python's `str.strip()` whitespace test, i.e. `str.isspace()`: the
ASCII controls U+0009–U+000D, the separators U+001C–U+001F, space, NEL
(U+0085), NBSP (U+00A0), OGHAM SPACE MARK (U+1680), the Unicode space
separators U+2000–U+200A, LINE SEPARATOR (U+2028), PARAGRAPH SEPARATOR
(U+2029), NARROW NBSP (U+202F), MEDIUM MATHEMATICAL SPACE (U+205F), and
IDEOGRAPHIC SPACE (U+3000). -/
def pyWhitespace (c : Char) : Bool :=
  let n := c.toNat
  (9 ≤ n && n ≤ 13) || (28 ≤ n && n ≤ 31) || n = 32 ||
  n = 133 || n = 160 || n = 0x1680 ||
  (0x2000 ≤ n && n ≤ 0x200A) || n = 0x2028 || n = 0x2029 ||
  n = 0x202F || n = 0x205F || n = 0x3000

/-- Python's `str.strip()`: remove leading and trailing whitespace. -/
def pyStrip (s : String) : String :=
  ⟨(((s.data.dropWhile pyWhitespace).reverse.dropWhile pyWhitespace).reverse)⟩

/-- The contents `deploy.py` writes to `.agent_resource` (line 89):
exactly `remote_app.resource_name`, nothing appended. -/
def writeResourceFile (resourceName : String) : String := resourceName

/-- What `test_agent.py` recovers from the `.agent_resource` file contents
(line 184): `resource_file.read_text().strip()`. -/
def readResourceFile (contents : String) : String := pyStrip contents

/-- Observable outcome of the resource-name resolution in `main`
(`test_agent.py`, lines 172–198 before the suite starts). -/
structure ResolveOutcome where
  resourceName : Option String
  fileConsulted : Bool
  earlyExitCode : Option Nat
  printedUsage : Bool
  sdkInitialized : Bool
deriving DecidableEq, Repr

/-- The resolution logic of `main` (lines 176–193): when `sys.argv[1]` is
`--resource` and a value follows, that value is the resource name and the
file is never consulted; otherwise the `.agent_resource` file is consulted —
if it exists, its stripped contents are the resource name, and if not, usage
guidance is printed and the process exits 1 before `vertexai.init` runs
(the SDK is initialized only inside `test_agent`, entered afterwards). -/
def resolveResource (argv : List String) (fileContents : Option String) :
    ResolveOutcome :=
  if argv.get? 1 = some "--resource" ∧ 2 < argv.length then
    ⟨argv.get? 2, false, none, false, true⟩
  else
    match fileContents with
    | some c => ⟨some (pyStrip c), true, none, false, true⟩
    | none => ⟨none, true, some 1, true, false⟩

/-! ## Helper lemmas -/

lemma str_append_assoc (a b c : String) : a ++ b ++ c = a ++ (b ++ c) := by
  apply String.ext; simp [String.data_append]

lemma str_append_empty (a : String) : a ++ "" = a := by
  apply String.ext; simp [String.data_append]

lemma str_empty_append (a : String) : "" ++ a = a := by
  apply String.ext; simp [String.data_append]

lemma concat_foldl_general (l : List String) (a : String) :
    l.foldl (fun x y => x ++ y) a = a ++ concatFragments l := by
  induction l generalizing a with
  | nil => simp [concatFragments, str_append_empty]
  | cons x xs ih =>
    show xs.foldl (fun x y => x ++ y) (a ++ x) = _
    rw [ih (a ++ x)]
    have hx : concatFragments (x :: xs) =
        xs.foldl (fun x y => x ++ y) (("" : String) ++ x) := rfl
    rw [hx, ih (("" : String) ++ x), str_empty_append, str_append_assoc]

lemma concatFragments_cons (x : String) (l : List String) :
    concatFragments (x :: l) = x ++ concatFragments l := by
  have h : concatFragments (x :: l) =
      l.foldl (fun x y => x ++ y) (("" : String) ++ x) := rfl
  rw [h, concat_foldl_general, str_empty_append]

lemma concatFragments_append (xs ys : List String) :
    concatFragments (xs ++ ys) = concatFragments xs ++ concatFragments ys := by
  induction xs with
  | nil =>
    show concatFragments ys = concatFragments [] ++ concatFragments ys
    rw [show concatFragments ([] : List String) = "" from rfl,
      str_empty_append]
  | cons x xs ih =>
    rw [List.cons_append, concatFragments_cons, ih, concatFragments_cons,
      str_append_assoc]

lemma collectStep_split (acc : List String) (e : Option String) :
    collectStep acc e = acc ++ collectStep [] e := by
  cases e with
  | none => simp [collectStep]
  | some t =>
    by_cases h : t = "" <;> simp [collectStep, h]

lemma collectParts_general (events : List (Option String))
    (acc : List String) :
    events.foldl collectStep acc = acc ++ collectParts events := by
  induction events generalizing acc with
  | nil => simp [collectParts]
  | cons e es ih =>
    show es.foldl collectStep (collectStep acc e) = _
    rw [ih (collectStep acc e), collectStep_split]
    have h : collectParts (e :: es) = collectStep [] e ++ collectParts es := by
      show es.foldl collectStep (collectStep [] e) = _
      rw [ih (collectStep [] e)]
    rw [h, List.append_assoc]

lemma collectParts_cons (e : Option String) (events : List (Option String)) :
    collectParts (e :: events) = collectStep [] e ++ collectParts events := by
  show events.foldl collectStep (collectStep [] e) = _
  rw [collectParts_general]

lemma fullResponse_map_some (frags : List String) :
    fullResponse (frags.map some) = concatFragments frags := by
  induction frags with
  | nil => rfl
  | cons f fs ih =>
    unfold fullResponse at *
    rw [List.map_cons, collectParts_cons, concatFragments_append, ih]
    by_cases hf : f = ""
    · subst hf
      rw [show collectStep [] (some "") = [] from rfl,
        show concatFragments ([] : List String) = "" from rfl,
        str_empty_append, concatFragments_cons, str_empty_append]
    · rw [show collectStep [] (some f) = if f = "" then [] else [f] from rfl,
        if_neg hf, concatFragments_cons, concatFragments_cons,
        show concatFragments ([] : List String) = "" from rfl,
        str_append_empty]

lemma feedAll_arrived (l : List String) (st : AggregatorState) :
    (feedAll st l).arrived = st.arrived ++ l := by
  induction l generalizing st with
  | nil => simp [feedAll]
  | cons x xs ih =>
    show (feedAll (feed st x) xs).arrived = _
    rw [ih]
    simp [feed]

lemma peekPartial_feedAll (l : List String) :
    peekPartial (feedAll ⟨[]⟩ l) = concatFragments l := by
  unfold peekPartial
  rw [feedAll_arrived]
  rfl

/-! ## Claim theorems -/

/-- Claim C1: every argument set dispatched to the external tool server
carries `tenant_id = "senso-sushi"`, regardless of what value the model
proposed — the Validating step injects the fixed tenant, overriding any
model-supplied binding. -/
theorem tenant_override (op : Operation)
    (modelArgs dispatched : List (String × Value))
    (h : dispatch op modelArgs = some dispatched) :
    lookupArg "tenant_id" dispatched = some (Value.str fixedTenant) := by
  have h' : (if validate op (injectTenant modelArgs) then
      some (injectTenant modelArgs) else none) = some dispatched := h
  by_cases hv : validate op (injectTenant modelArgs) = true
  · rw [if_pos hv] at h'
    have hd : injectTenant modelArgs = dispatched := Option.some.inj h'
    rw [← hd]
    rfl
  · rw [if_neg hv] at h'
    cases h'

/-- Witness for claim C1: the model proposes `tenant_id = "evil"` on a
well-formed `show_top_items` call; the dispatched argument set carries the
fixed tenant instead. -/
theorem tenant_override_witness :
    lookupArg "tenant_id"
      [("tenant_id", Value.str fixedTenant), ("limit", Value.int 10),
       ("startDate", Value.str "2025-07-01"),
       ("endDate", Value.str "2025-07-31")] =
      some (Value.str fixedTenant) :=
  tenant_override showTopItems
    [("tenant_id", Value.str "evil"), ("limit", Value.int 10),
     ("startDate", Value.str "2025-07-01"),
     ("endDate", Value.str "2025-07-31")]
    [("tenant_id", Value.str fixedTenant), ("limit", Value.int 10),
     ("startDate", Value.str "2025-07-01"),
     ("endDate", Value.str "2025-07-31")]
    (by decide)

/-- Claim C2: the aggregated final message is the left-to-right
concatenation of the streamed text fragments in arrival order; in
particular `["Sales ", "were ", "$500"]` aggregates to exactly
`"Sales were $500"`. -/
theorem aggregation_concat :
    (∀ frags : List String,
      fullResponse (frags.map some) = concatFragments frags) ∧
    fullResponse [some "Sales ", some "were ", some "$500"] =
      "Sales were $500" :=
  ⟨fullResponse_map_some, by decide⟩

/-- Claim C3: a `show_top_items` argument set whose `limit` lies outside
the inclusive range `[1, 1000]` is rejected by validation, and no network
request is performed for that tool call. -/
theorem limit_range_rejected (modelArgs : List (String × Value)) (n : Int)
    (hmem : ("limit", Value.int n) ∈ modelArgs)
    (hrange : n < 1 ∨ 1000 < n) :
    dispatch showTopItems modelArgs = none ∧
      requestsSent showTopItems modelArgs = 0 := by
  have hmem' : ("limit", Value.int n) ∈ injectTenant modelArgs :=
    List.mem_cons_of_mem _ (List.mem_filter.mpr ⟨hmem, by simp⟩)
  have hpair : pairOk showTopItems ("limit", Value.int n) = false := by
    have hred : pairOk showTopItems ("limit", Value.int n) =
        satisfies (Value.int n) (.intRange 1 1000) := rfl
    rw [hred]
    rcases hrange with h | h <;> · simp [satisfies]; omega
  have hall : (injectTenant modelArgs).all
      (fun p => pairOk showTopItems p) = false := by
    rw [List.all_eq_false]
    exact ⟨_, hmem', by simp [hpair]⟩
  have hval : validate showTopItems (injectTenant modelArgs) = false := by
    unfold validate
    rw [hall]
    simp
  have hdisp : dispatch showTopItems modelArgs = none := by
    have h' : dispatch showTopItems modelArgs =
        (if validate showTopItems (injectTenant modelArgs) then
          some (injectTenant modelArgs) else none) := rfl
    rw [h', hval]
    simp
  refine ⟨hdisp, ?_⟩
  unfold requestsSent
  rw [hdisp]

/-- Witness for claim C3: `limit = 0` on an otherwise well-formed
`show_top_items` argument set is rejected and dispatches nothing. -/
theorem limit_range_rejected_witness :
    dispatch showTopItems
      [("limit", Value.int 0), ("startDate", Value.str "2025-07-01"),
       ("endDate", Value.str "2025-07-31")] = none ∧
    requestsSent showTopItems
      [("limit", Value.int 0), ("startDate", Value.str "2025-07-01"),
       ("endDate", Value.str "2025-07-31")] = 0 :=
  limit_range_rejected
    [("limit", Value.int 0), ("startDate", Value.str "2025-07-01"),
     ("endDate", Value.str "2025-07-31")]
    0 (by decide) (Or.inl (by decide))

/-- Claim C4: interrupting aggregation after a prefix of fragments has
arrived loses nothing — `peekPartial()` returns exactly the concatenation
of the arrived prefix, which is a prefix of the complete aggregate; after
the first two of `["Sales ", "were ", "$500"]` it returns `"Sales were "`. -/
theorem partial_retrievable (frags : List String) (k : Nat) :
    peekPartial (feedAll ⟨[]⟩ (frags.take k)) =
      concatFragments (frags.take k) ∧
    (∃ rest, collectAll frags =
      peekPartial (feedAll ⟨[]⟩ (frags.take k)) ++ rest) ∧
    peekPartial (feedAll ⟨[]⟩ (["Sales ", "were ", "$500"].take 2)) =
      "Sales were " := by
  refine ⟨peekPartial_feedAll _, ⟨concatFragments (frags.drop k), ?_⟩, by decide⟩
  unfold collectAll
  rw [peekPartial_feedAll, peekPartial_feedAll, ← concatFragments_append,
    List.take_append_drop]

/-- Claim C5: the catalog advertised to the language model has exactly the
eight operations of the Section 6 table, with exactly its required and
optional parameters, the `[1, 1000]` range on `limit`, and the declared
enumerations on `type` and `comparison`. -/
theorem catalog_matches_spec_table :
    instructionCatalog.length = 8 ∧
    instructionCatalog.map
      (fun op => (op.opName, requiredNames op, optionalNames op)) =
      specTableSection6 ∧
    constraintOf "show_top_items" "limit" = some (.intRange 1 1000) ∧
    constraintOf "find_peak_day" "type" =
      some (.enum ["highest", "lowest"]) ∧
    constraintOf "compare_day_types" "comparison" =
      some (.enum ["weekday_vs_weekend", "by_day_of_week"]) ∧
    constraintOf "track_item_performance" "itemName" = some .freeText := by
  refine ⟨by decide, by decide, by decide, by decide, by decide, by decide⟩

/-- Claim C6: the resource name written to `.agent_resource` by the deploy
script is read back unchanged by the test harness, provided it carries no
leading or trailing whitespace (the reader strips both ends). -/
theorem resource_roundtrip (r : String)
    (hhead : r.data.head?.all (fun c => !pyWhitespace c) = true)
    (hlast : r.data.getLast?.all (fun c => !pyWhitespace c) = true) :
    readResourceFile (writeResourceFile r) = r := by
  have h1 : r.data.dropWhile pyWhitespace = r.data := by
    cases hr : r.data with
    | nil => rfl
    | cons a l =>
      have ha : pyWhitespace a = false := by
        rw [hr] at hhead
        simpa using hhead
      simp [List.dropWhile_cons, ha]
  have h2 : List.rdropWhile pyWhitespace r.data = r.data := by
    rw [List.rdropWhile_eq_self_iff]
    intro hn
    rw [List.getLast?_eq_getLast_of_ne_nil hn] at hlast
    simpa using hlast
  have h3 : readResourceFile (writeResourceFile r) =
      ⟨List.rdropWhile pyWhitespace (r.data.dropWhile pyWhitespace)⟩ := rfl
  rw [h3, h1, h2]

/-- Witness for claim C6: a concrete whitespace-free resource name
round-trips through the file. -/
theorem resource_roundtrip_witness :
    readResourceFile
      (writeResourceFile "projects/p/locations/l/reasoningEngines/42") =
      "projects/p/locations/l/reasoningEngines/42" :=
  resource_roundtrip "projects/p/locations/l/reasoningEngines/42"
    (by decide) (by decide)

/-- Claim C7: the deploy script and the test harness exit 0 exactly on full
success and 1 on any unrecoverable setup, deployment, or test failure,
printing a diagnostic on the deploy failure paths and attempting the
deployment at most once (no retry). -/
theorem script_exit_codes (d : DeployRun) (s : TestSetup)
    (resp : String → Except Unit (List (Option String))) :
    ((runDeploy d).exitCode = 0 ↔
      d.initOk = true ∧ d.wrapOk = true ∧ d.deployOk = true) ∧
    ((runDeploy d).exitCode = 0 ∨ (runDeploy d).exitCode = 1) ∧
    ((runDeploy d).exitCode = 1 → (runDeploy d).printedDiagnostic = true) ∧
    (runDeploy d).deployAttempts ≤ 1 ∧
    (testHarnessExitCode s resp = 0 ↔
      s.resourceFound = true ∧ s.connectOk = true ∧ s.sessionOk = true ∧
        suiteSuccess resp = true) ∧
    (testHarnessExitCode s resp = 0 ∨ testHarnessExitCode s resp = 1) := by
  obtain ⟨i, w, dep, sv⟩ := d
  obtain ⟨rf, co, se⟩ := s
  cases i <;> cases w <;> cases dep <;> cases sv <;>
    cases rf <;> cases co <;> cases se <;>
      cases hs : suiteSuccess resp <;>
        simp [runDeploy, testHarnessExitCode, suiteExitCode, hs]

/-- Claim C8: a test query passes exactly when the concatenation of its
streamed fragments is non-empty; the `expected_tool` field is never
consulted, so the verdict is invariant under changing it; and the suite's
exit code is 0 exactly when every query passed. -/
theorem harness_ignores_expected_tool
    (resp : String → Except Unit (List (Option String))) :
    (∀ events, queryPassed (Except.ok events) = true ↔
      fullResponse events ≠ "") ∧
    (∀ (q : TestQuery) (t : String),
      verdictFor resp { q with expected_tool := t } = verdictFor resp q) ∧
    (suiteExitCode resp = 0 ↔
      ∀ q ∈ TEST_QUERIES, verdictFor resp q = true) := by
  refine ⟨?_, ?_, ?_⟩
  · intro events
    simp [queryPassed]
  · intro q t
    rfl
  · unfold suiteExitCode suiteSuccess
    cases hall : TEST_QUERIES.all (verdictFor resp) with
    | false =>
      rw [List.all_eq_false] at hall
      obtain ⟨q, hq, hv⟩ := hall
      have hne : (if ((false : Bool) = true) then (0 : Nat) else 1) = 1 :=
        if_neg (by simp)
      constructor
      · intro h10
        rw [hne] at h10
        cases h10
      · intro hfor
        exact absurd (hfor q hq) (by simpa using hv)
    | true =>
      constructor
      · intro _
        rw [List.all_eq_true] at hall
        exact hall
      · intro _
        exact if_pos rfl

/-- Claim C9: a failure to persist the resource name after a successful
deployment is not fatal — the script warns, still prints the success
summary, and exits 0. -/
theorem save_failure_not_fatal (d : DeployRun)
    (hi : d.initOk = true) (hw : d.wrapOk = true) (hd : d.deployOk = true) :
    (runDeploy d).exitCode = 0 ∧ (runDeploy d).printedSummary = true ∧
      (d.saveOk = false → (runDeploy d).warnedSave = true) := by
  obtain ⟨i, w, dep, sv⟩ := d
  cases hi; cases hw; cases hd
  cases sv <;> simp [runDeploy]

/-- Witness for claim C9: a run where everything succeeds except the
resource-file write still exits 0 with the summary printed and a warning. -/
theorem save_failure_not_fatal_witness :
    (runDeploy ⟨true, true, true, false⟩).exitCode = 0 ∧
    (runDeploy ⟨true, true, true, false⟩).printedSummary = true ∧
    ((false : Bool) = false →
      (runDeploy ⟨true, true, true, false⟩).warnedSave = true) :=
  save_failure_not_fatal ⟨true, true, true, false⟩ rfl rfl rfl

/-- Claim C10: when `--resource` is the first argument and a value follows,
that value is the resource name and the state file is never consulted; with
no such argument and no `.agent_resource` file, the harness prints usage
and exits 1 before the SDK is initialized. -/
theorem resource_resolution :
    (∀ (script v : String) (rest : List String) (file : Option String),
      resolveResource (script :: "--resource" :: v :: rest) file =
        ⟨some v, false, none, false, true⟩) ∧
    (∀ argv : List String,
      ¬(argv.get? 1 = some "--resource" ∧ 2 < argv.length) →
        resolveResource argv none = ⟨none, true, some 1, true, false⟩) := by
  constructor
  · intro script v rest file
    unfold resolveResource
    rw [if_pos ⟨rfl, by simp only [List.length_cons]; omega⟩]
    rfl
  · intro argv h
    unfold resolveResource
    rw [if_neg h]

end FDS
